import Mathlib

/-!
# Verification of the credential and capability-token subsystem

Shallow embedding of the Rust sources:
- `src/models/access_token.rs` (`AccessToken::create`, `AccessToken::find_valid_by_token`,
  `AccessToken::revoke`, `create_macaroon`),
- `src/api/r0/login.rs` (`Login::handle`: identity resolution and error collapsing),
- `src/api/r0/authentication.rs` (`Register::handle`: password hashing and response).

External collaborators (the `macaroons`, `base64`, `chrono`, `argon2rs`,
`ruma_identifiers` crates and the Diesel/Postgres store) are modelled explicitly:
byte strings are `List Nat`, instants are seconds-since-epoch as `Nat`, and the
durable `access_tokens` table is a list of rows plus a fresh-id counter.
-/

set_option maxRecDepth 4000

namespace Ruma

/-! ## Bytes and base64

The `base64::encode` primitive (standard alphabet with `=` padding), operating
on bytes modelled as `List Nat`. -/

/-- The standard base64 alphabet. -/
def base64Alphabet : List Char :=
  "ABCDEFGHIJKLMNOPQRSTUVWXYZabcdefghijklmnopqrstuvwxyz0123456789+/".toList

/-- The base64 digit for a 6-bit value. -/
def b64digit (n : Nat) : Char := base64Alphabet.getD n 'A'

/-- Encode bytes in groups of three into base64 characters, padding with `=`. -/
def encodeGroups : List Nat → List Char
  | b0 :: b1 :: b2 :: rest =>
      b64digit (b0 / 4) :: b64digit (b0 % 4 * 16 + b1 / 16) ::
        b64digit (b1 % 16 * 4 + b2 / 64) :: b64digit (b2 % 64) :: encodeGroups rest
  | [b0, b1] => [b64digit (b0 / 4), b64digit (b0 % 4 * 16 + b1 / 16), b64digit (b1 % 16 * 4), '=']
  | [b0] => [b64digit (b0 / 4), b64digit (b0 % 4 * 16), '=', '=']
  | [] => []

/-- `base64::encode`: bytes to a base64 string. -/
def base64encode (bs : List Nat) : String := String.mk (encodeGroups bs)

/-- Bytes of an ASCII string (all strings in this subsystem are ASCII). -/
def strBytes (s : String) : List Nat := s.toList.map Char.toNat

/-! ## User identifiers

`ruma_identifiers::UserId` is an external crate. Modelled from the spec:
an identity is a local part and a domain, written `@local:domain`. -/

/-- A fully-qualified user identity `@localpart:hostname`. -/
structure UserId where
  /-- The local part of the identifier. -/
  localpart : String
  /-- The domain (hostname) part of the identifier. -/
  hostname : String
deriving DecidableEq, Repr

/-- `UserId::to_string`: render as `@local:domain`. -/
def UserId.toStr (u : UserId) : String := "@" ++ u.localpart ++ ":" ++ u.hostname

/-- Split a character list at the first `:`; `none` when no colon occurs. -/
def splitColon : List Char → Option (List Char × List Char)
  | [] => none
  | c :: rest =>
      if c = ':' then some ([], rest)
      else (splitColon rest).map fun p => (c :: p.1, p.2)

/-- Modelled from the spec: `UserId::try_from` of the external `ruma_identifiers`
crate parses a fully-qualified identity of the form `@local:domain`, requiring
the leading `@`, a separating `:`, and nonempty local and domain parts. -/
def UserId.tryFrom (s : String) : Option UserId :=
  match s.toList with
  | [] => none
  | c :: rest =>
      if c = '@' then
        match splitColon rest with
        | some (l, h) => if l = [] ∨ h = [] then none else some ⟨String.mk l, String.mk h⟩
        | none => none
      else none

/-! ## Errors

`ApiError` constructors used by the embedded code paths. -/

/-- The error type of the subsystem (`crate::error::ApiError`). -/
inductive ApiErr
  /-- `ApiError::unknown(msg)`. -/
  | unknown (msg : String)
  /-- `ApiError::unauthorized(msg)`. -/
  | unauthorized (msg : String)
  /-- `ApiError::from` of a user-identifier parse failure. -/
  | invalidUserId
  /-- `ApiError::from` of a Diesel store failure (the spec's `StorageError`). -/
  | storage
deriving DecidableEq, Repr

/-! ## Macaroons

`macaroons::v1::V1Token` is an external crate (the spec's token cryptography
primitive). Its construction interface is modelled by its fields; caveats are
byte strings kept as `String`. -/

/-- A V1 macaroon: root secret key, identifier, optional location, and the
ordered list of first-party caveat predicates. -/
structure V1Token where
  /-- The root secret key the token is rooted at (never serialized in clear). -/
  key : List Nat
  /-- The root-key identifier label. -/
  identifier : String
  /-- The optional location (third-party caveat location). -/
  location : Option String
  /-- First-party caveats, in append order. -/
  caveats : List String
deriving DecidableEq, Repr

/-- `V1Token::new(key, identifier, location)`: a token with no caveats. -/
def V1Token.new (key : List Nat) (identifier : String) (location : Option String) : V1Token :=
  ⟨key, identifier, location, []⟩

/-- `Token::add_caveat` with a first-party caveat: append to the caveat list. -/
def V1Token.add_caveat (t : V1Token) (c : String) : V1Token :=
  { t with caveats := t.caveats ++ [c] }

/-- A deterministic signature-chain model: fold the caveats over the root key.
Stands in for the HMAC chain of the external macaroon primitive. -/
def sigChain (key : List Nat) (caveats : List String) : List Nat :=
  caveats.foldl (fun acc c => acc.zipWith (fun a b => (a * 131 + b) % 256)
    (strBytes c ++ acc) |>.take 32) (key.take 32 ++ List.replicate 32 0 |>.take 32)

/-- Modelled from the spec: `Token::serialize` of the external `macaroons` crate
(§6 token cryptography primitive) — binary serialization of the identifier, the
caveats in order, and the signature chain, as an injective byte encoding with
newline separators. -/
def V1Token.serialize (t : V1Token) : List Nat :=
  strBytes t.identifier ++ [10] ++
    (t.caveats.flatMap fun c => strBytes c ++ [10]) ++ sigChain t.key t.caveats

/-! ## Clock

`chrono::Utc::now().checked_add_signed` over instants modelled as
seconds-since-epoch. -/

/-- The largest representable instant (`chrono::MAX_UTC`, in whole seconds). -/
def maxInstant : Nat := 8210298412799

/-- `checked_add_signed`: `none` when the sum leaves the representable range. -/
def checkedAddSigned (now dur : Nat) : Option Nat :=
  if now + dur ≤ maxInstant then some (now + dur) else none

/-- Modelled from the spec: the fixed textual encoding of an instant used in the
`time <` caveat (`chrono`'s `Display`); rendered here as the decimal seconds. -/
def formatInstant (t : Nat) : String := toString t

/-! ## `create_macaroon` (src/models/access_token.rs, lines 99–123) -/

/-- The token constructed by `create_macaroon` before serialization: rooted at
`macaroon_secret_key` with identifier `"key"` and no location, with the three
first-party caveats appended in order. -/
def build_token (macaroon_secret_key : List Nat) (user_id : UserId) (expiration : Nat) :
    V1Token :=
  (((V1Token.new macaroon_secret_key "key" none).add_caveat
      ("user_id = " ++ user_id.toStr)).add_caveat
      "type = access").add_caveat
      ("time < " ++ formatInstant expiration)

/-- `create_macaroon(macaroon_secret_key, user_id)`: compute the expiration as
`now + 1 hour` (failing like the source when the addition overflows), build the
caveated token, serialize it and base64-encode. The wall clock reading
`Utc::now()` is passed explicitly as `now`. -/
def create_macaroon (macaroon_secret_key : List Nat) (user_id : UserId) (now : Nat) :
    Except ApiErr String :=
  match checkedAddSigned now (60 * 60) with
  | none => .error (.unknown "Failed to generate access token expiration datetime.")
  | some expiration =>
      .ok (base64encode (build_token macaroon_secret_key user_id expiration).serialize)

/-! ## The `access_tokens` table and `AccessToken` operations -/

/-- A row of the `access_tokens` table (`struct AccessToken`). -/
structure AccessToken where
  /-- The access token's ID. -/
  id : Nat
  /-- The ID of the user who owns the access token. -/
  user_id : UserId
  /-- The value of the access token: a Base64-encoded macaroon. -/
  value : String
  /-- Whether or not the access token has been revoked. -/
  revoked : Bool
  /-- The time the access token was created. -/
  created_at : Nat
  /-- The time the access token was last modified. -/
  updated_at : Nat
deriving DecidableEq, Repr

/-- The durable `access_tokens` table: rows in insertion order plus the next
fresh primary key the database will assign. -/
structure Store where
  /-- The stored rows, in insertion order. -/
  rows : List AccessToken
  /-- The next primary key to be assigned. -/
  nextId : Nat
deriving DecidableEq, Repr

/-- `AccessToken::create`: build the macaroon value for the user, insert a new
row (the database assigns the id, defaults `revoked` to `false` and stamps the
timestamps), and return the inserted row. Propagates `create_macaroon` errors. -/
def AccessToken.create (s : Store) (user_id : UserId) (macaroon_secret_key : List Nat)
    (now : Nat) : Except ApiErr (AccessToken × Store) :=
  match create_macaroon macaroon_secret_key user_id now with
  | .error e => .error e
  | .ok value =>
      let row : AccessToken := ⟨s.nextId, user_id, value, false, now, now⟩
      .ok (row, ⟨s.rows ++ [row], s.nextId + 1⟩)

/-- `AccessToken::find_valid_by_token`: the first row whose `value` equals the
presented token and whose `revoked` is `false`; Diesel's `NotFound` becomes
`Ok(None)`, modelled as `none`. -/
def AccessToken.find_valid_by_token (s : Store) (token : String) : Option AccessToken :=
  s.rows.find? fun r => r.value == token && r.revoked == false

/-- `AccessToken::revoke`: set `self.revoked = true` in memory, then
`save_changes` — update the row with the same id to the changed fields. The
store's acknowledgement is modelled by `writeOk`: when the write fails, the
table is unchanged and a `StorageError` is returned, but the in-memory record
has already been mutated (source lines 85–90 set the flag before saving).
Returns the in-memory record, the table, and the call's result. -/
def AccessToken.revoke (t : AccessToken) (s : Store) (writeOk : Bool) :
    AccessToken × Store × Except ApiErr Unit :=
  let t' : AccessToken := { t with revoked := true }
  if writeOk then
    (t', ⟨s.rows.map fun r => if r.id = t'.id then t' else r, s.nextId⟩, .ok ())
  else
    (t', s, .error .storage)

/-! ## `Login::handle` (src/api/r0/login.rs, lines 88–137) -/

/-- Resolve the request's `user` field to a `UserId` (login.rs lines 98–112):
a string that parses as a fully-qualified id is accepted only when its hostname
is the configured domain, else fails unauthorized; otherwise the local part is
combined with the configured domain as `@user:domain` and parsed, any parse
failure propagating as an error. -/
def resolveUser (raw : String) (domain : String) : Except ApiErr UserId :=
  match UserId.tryFrom raw with
  | some user_id =>
      if user_id.hostname ≠ domain then
        .error (.unauthorized "User cannot be identified by this homeserver")
      else
        .ok user_id
  | none =>
      match UserId.tryFrom ("@" ++ raw ++ ":" ++ domain) with
      | some user_id => .ok user_id
      | none => .error .invalidUserId

/-- Modelled from the spec: the internal error taxonomy of the external
`crate::authentication` module's `authenticate` (§4.2): an unknown identity or
a password mismatch. -/
inductive AuthError
  /-- No credential record exists for the identity. -/
  | unknownIdentity
  /-- The presented password does not match the stored hash. -/
  | invalidCredentials
deriving DecidableEq, Repr

/-- The registered user returned by `authenticate` (its `id` is the identity). -/
structure RegisteredUser where
  /-- The user's fully-qualified identity. -/
  id : UserId
deriving DecidableEq, Repr

/-- The body of the `/login` response (`struct LoginResponse`). -/
structure LoginResponse where
  /-- The issued access token value. -/
  access_token : String
  /-- The hostname of the homeserver. -/
  home_server : String
  /-- The fully-qualified user id. -/
  user_id : UserId
deriving DecidableEq, Repr

/-- `Login::handle` after body parsing (login.rs lines 96–136): resolve the
identity, authenticate — mapping every authentication error to the one
unauthorized "Invalid credentials" error —, create an access token, and build
the response. The external `authenticate` is passed as `auth`; the wall clock
as `now`. -/
def loginHandle (auth : UserId → String → Except AuthError RegisteredUser)
    (domain : String) (macaroon_secret_key : List Nat) (now : Nat)
    (user pass : String) (s : Store) : Except ApiErr (LoginResponse × Store) :=
  match resolveUser user domain with
  | .error e => .error e
  | .ok user_id =>
      match auth user_id pass with
      | .error _ => .error (.unauthorized "Invalid credentials")
      | .ok registered_user =>
          match AccessToken.create s registered_user.id macaroon_secret_key now with
          | .error e => .error e
          | .ok (access_token, s') =>
              .ok (⟨access_token.value, domain, registered_user.id⟩, s')

/-! ## `Register::handle` (src/api/r0/authentication.rs, lines 45–92) -/

/-- The body of the `/register` request (`struct RegistrationRequest`). -/
structure RegistrationRequest where
  /-- Whether to bind an email (unused by the handler). -/
  bind_email : Option Bool
  /-- The desired password. -/
  password : String
  /-- The desired username; a random 12-character string is used when absent. -/
  username : Option String
deriving DecidableEq, Repr

/-- A stored user record (`user::User`): id and password hash. -/
structure User where
  /-- The user's id. -/
  id : String
  /-- The argon2 password hash, base64-encoded. -/
  password_hash : String
deriving DecidableEq, Repr

/-- The body of the `/register` response (`struct RegistrationResponse`). -/
structure RegistrationResponse where
  /-- The access token field of the response. -/
  access_token : String
  /-- The home server field of the response. -/
  home_server : String
  /-- The id of the registered user. -/
  user_id : String
deriving DecidableEq, Repr

/-- The fixed literal salt the handler passes to `argon2i_simple`. -/
def fixedSalt : String := "extremely insecure"

/-- The `NewUser` built by `Register::handle` (authentication.rs lines 56–69):
id from the request's username or the thread-rng string `rngName`, and
`password_hash` the base64 (`u8en`) of `argon2i_simple(password, fixedSalt)`.
The external argon2 primitive is passed as `argon2i_simple`. -/
def mkNewUser (argon2i_simple : String → String → List Nat) (rngName : String)
    (req : RegistrationRequest) : User :=
  { id := req.username.getD rngName
    password_hash := base64encode (argon2i_simple req.password fixedSalt) }

/-- `Register::handle` after body parsing (authentication.rs lines 56–91):
build the new user record, insert it into the `users` table, and respond with
the literal fake token fields. The `access_tokens` table is threaded through to
record that registration never touches it. -/
def registerHandle (argon2i_simple : String → String → List Nat) (rngName : String)
    (req : RegistrationRequest) (users : List User) (tokens : Store) :
    Except ApiErr (RegistrationResponse × List User × Store) :=
  let user := mkNewUser argon2i_simple rngName req
  .ok (⟨"fake access token", "fake home server", user.id⟩, users ++ [user], tokens)

/-! ## Operation sequences over the token table

For the revocation-monotonicity invariant: the operations of the subsystem as a
step function on the durable store. -/

/-- An operation on the `access_tokens` table. -/
inductive Op
  /-- `AccessToken::create` for a user with a key at a clock reading. -/
  | create (u : UserId) (key : List Nat) (now : Nat)
  /-- `AccessToken::find_valid_by_token` (a read; no mutation). -/
  | find (v : String)
  /-- `AccessToken::revoke` of an in-memory record, with the write outcome. -/
  | revoke (t : AccessToken) (writeOk : Bool)

/-- The effect of one operation on the durable store. -/
def applyOp (s : Store) : Op → Store
  | .create u key now =>
      match AccessToken.create s u key now with
      | .ok p => p.2
      | .error _ => s
  | .find _ => s
  | .revoke t writeOk => (AccessToken.revoke t s writeOk).2.1

/-- The effect of a sequence of operations, applied left to right. -/
def applyOps (s : Store) : List Op → Store
  | [] => s
  | op :: rest => applyOps (applyOp s op) rest

/-- Store well-formedness: every row's id is below the fresh-id counter. -/
def Store.WF (s : Store) : Prop := ∀ r ∈ s.rows, r.id < s.nextId

/-- Id `i` is present and every row carrying it is revoked. -/
def Store.RevokedId (s : Store) (i : Nat) : Prop :=
  (∃ r ∈ s.rows, r.id = i) ∧ ∀ r ∈ s.rows, r.id = i → r.revoked = true

instance : DecidablePred (Store.WF) := fun s =>
  inferInstanceAs (Decidable (∀ r ∈ s.rows, r.id < s.nextId))

instance (s : Store) (i : Nat) : Decidable (Store.RevokedId s i) :=
  inferInstanceAs (Decidable (_ ∧ _))

/-! ## Demonstration constants for concrete instantiations -/

/-- A concrete identity. -/
def demoUser : UserId := ⟨"carl", "ruma.test"⟩

/-- A concrete signing key (the bytes of `"key"`). -/
def demoKey : List Nat := [107, 101, 121]

/-- A concrete stored row that is not revoked. -/
def demoRow : AccessToken := ⟨0, demoUser, "v", false, 0, 0⟩

/-! ## Theorems -/

/-- C2: `find_valid_by_token` returns a record only if a stored row matches the
presented value and is unrevoked; when no such row exists — value unknown or
the matching row revoked — it returns `none`, the one failure result, so the
two cases are indistinguishable to the caller. -/
theorem find_valid_by_token_spec (s : Store) (v : String) :
    (∀ r, AccessToken.find_valid_by_token s v = some r →
        r ∈ s.rows ∧ r.value = v ∧ r.revoked = false) ∧
    ((∀ r ∈ s.rows, ¬(r.value = v ∧ r.revoked = false)) →
        AccessToken.find_valid_by_token s v = none) := by
  constructor
  · intro r h
    have hm := List.mem_of_find?_eq_some h
    have hp := List.find?_some h
    simp only [Bool.and_eq_true, beq_iff_eq] at hp
    exact ⟨hm, hp.1, hp.2⟩
  · intro h
    apply List.find?_eq_none.mpr
    intro r hr
    simp only [Bool.and_eq_true, beq_iff_eq, not_and]
    intro hv hrev
    exact h r hr ⟨hv, hrev⟩

/-- Witness for C2: on a store whose only matching row is revoked, the lookup
fails exactly as on a store that has no matching row at all. -/
theorem find_valid_by_token_spec_witness :
    AccessToken.find_valid_by_token ⟨[⟨0, demoUser, "v", true, 0, 0⟩], 1⟩ "v" = none ∧
    AccessToken.find_valid_by_token ⟨[], 0⟩ "v" = none :=
  ⟨(find_valid_by_token_spec ⟨[⟨0, demoUser, "v", true, 0, 0⟩], 1⟩ "v").2 (by decide),
   (find_valid_by_token_spec ⟨[], 0⟩ "v").2 (by decide)⟩

/-- C3: the token built by `create_macaroon` is rooted at the signing key with
identifier `"key"` and no location, carries exactly the three first-party
caveats in order (`user_id`, `type`, `time`), and the returned value is the
base64 encoding of the token's serialized bytes. -/
theorem create_macaroon_shape (key : List Nat) (u : UserId) (now expiration : Nat)
    (h : checkedAddSigned now (60 * 60) = some expiration) :
    (build_token key u expiration).key = key ∧
    (build_token key u expiration).identifier = "key" ∧
    (build_token key u expiration).location = none ∧
    (build_token key u expiration).caveats =
      ["user_id = " ++ u.toStr, "type = access", "time < " ++ formatInstant expiration] ∧
    create_macaroon key u now =
      .ok (base64encode (build_token key u expiration).serialize) := by
  refine ⟨rfl, rfl, rfl, rfl, ?_⟩
  unfold create_macaroon
  rw [h]

/-- Witness for C3 at a concrete key, identity and clock reading. -/
theorem create_macaroon_shape_witness :
    (build_token demoKey demoUser 3600).caveats =
      ["user_id = @carl:ruma.test", "type = access", "time < 3600"] ∧
    create_macaroon demoKey demoUser 0 =
      .ok (base64encode (build_token demoKey demoUser 3600).serialize) := by
  have h := create_macaroon_shape demoKey demoUser 0 3600 (by decide)
  exact ⟨h.2.2.2.1, h.2.2.2.2⟩

/-- C4 counterexample: issuance accepts no caller-supplied ttl — the expiration
is fixed at one hour. At `now = 0`, a caller-requested ttl of 7200 seconds is
representable, yet the issued token's time caveat embeds 3600, not
`now + 7200`: the expiration is not `now() + ttl` for a caller-supplied ttl. -/
theorem issue_ttl_counterexample :
    checkedAddSigned 0 7200 = some 7200 ∧
    create_macaroon demoKey demoUser 0 =
      .ok (base64encode (build_token demoKey demoUser 3600).serialize) ∧
    ¬ (build_token demoKey demoUser 3600).caveats.getLast? =
        some ("time < " ++ formatInstant (0 + 7200)) := by
  refine ⟨by decide, rfl, by decide⟩

/-- C4 amended: `create_macaroon` takes no ttl; it computes
`expires_at = now + 1 hour`, fails with the generic unknown error (the spec's
`ClockError`) when that addition leaves the representable instant range, and
otherwise embeds exactly `expires_at` in the third caveat. -/
theorem expiration_fixed_one_hour (key : List Nat) (u : UserId) (now : Nat) :
    (now + 60 * 60 ≤ maxInstant →
      create_macaroon key u now =
        .ok (base64encode (build_token key u (now + 60 * 60)).serialize) ∧
      (build_token key u (now + 60 * 60)).caveats.getLast? =
        some ("time < " ++ formatInstant (now + 60 * 60))) ∧
    (maxInstant < now + 60 * 60 →
      create_macaroon key u now =
        .error (.unknown "Failed to generate access token expiration datetime.")) := by
  constructor
  · intro h
    constructor
    · unfold create_macaroon checkedAddSigned
      rw [if_pos h]
    · rfl
  · intro h
    unfold create_macaroon checkedAddSigned
    rw [if_neg (by omega)]

/-- Witness for the amended C4: the in-range branch at `now = 0` and the
overflow branch at `now = maxInstant`. -/
theorem expiration_fixed_one_hour_witness :
    create_macaroon demoKey demoUser 0 =
      .ok (base64encode (build_token demoKey demoUser (0 + 60 * 60)).serialize) ∧
    create_macaroon demoKey demoUser maxInstant =
      .error (.unknown "Failed to generate access token expiration datetime.") :=
  ⟨((expiration_fixed_one_hour demoKey demoUser 0).1 (by decide)).1,
   (expiration_fixed_one_hour demoKey demoUser maxInstant).2 (by decide)⟩

/-- C7 counterexample: on a failed persist (`writeOk = false`), `revoke`
returns the storage error, yet the in-memory record — unrevoked beforehand —
already carries `revoked = true`: the flag is set ahead of the store's
acknowledgement (source lines 85–87 mutate before `save_changes`). -/
theorem revoke_premature_flag_counterexample :
    demoRow.revoked = false ∧
    (AccessToken.revoke demoRow ⟨[demoRow], 1⟩ false).2.2 = .error .storage ∧
    (AccessToken.revoke demoRow ⟨[demoRow], 1⟩ false).1.revoked = true := by
  refine ⟨rfl, rfl, rfl⟩

/-- C7 amended: when the persist fails, `revoke` returns `StorageError` and the
durable store is unchanged, but the in-memory record's `revoked` flag has
already been set to `true` before the write is acknowledged. -/
theorem revoke_error_leaves_store (t : AccessToken) (s : Store) :
    AccessToken.revoke t s false = ({ t with revoked := true }, s, .error .storage) := rfl

/-- Shape of a successful `AccessToken.create`: the returned row carries the
fresh id, the given user, `revoked = false` and the clock stamps, and the new
store appends exactly that row. -/
theorem create_ok_shape (s : Store) (u : UserId) (key : List Nat) (now : Nat)
    (t : AccessToken) (s' : Store)
    (hc : AccessToken.create s u key now = .ok (t, s')) :
    t = ⟨s.nextId, u, t.value, false, now, now⟩ ∧
    s' = ⟨s.rows ++ [t], s.nextId + 1⟩ := by
  unfold AccessToken.create at hc
  cases hmac : create_macaroon key u now with
  | error e => rw [hmac] at hc; exact absurd hc (by simp)
  | ok value =>
      rw [hmac] at hc
      simp only [Except.ok.injEq, Prod.mk.injEq] at hc
      obtain ⟨ht, hs⟩ := hc
      subst hs
      constructor
      · rw [← ht]
      · rw [← ht]

/-- C1: when issuance succeeds and the issued value is fresh in the store (the
spec's uniqueness invariant on `value`), an immediate `find_valid_by_token` on
the serialized value returns the freshly inserted record, whose `user_id` is
the issuing identity. -/
theorem create_then_find (s : Store) (u : UserId) (key : List Nat) (now : Nat)
    (t : AccessToken) (s' : Store)
    (hc : AccessToken.create s u key now = .ok (t, s'))
    (fresh : ∀ r ∈ s.rows, r.value ≠ t.value) :
    AccessToken.find_valid_by_token s' t.value = some t ∧ t.user_id = u := by
  obtain ⟨ht, hs⟩ := create_ok_shape s u key now t s' hc
  constructor
  · rw [hs]
    unfold AccessToken.find_valid_by_token
    rw [List.find?_append]
    have hnone : (s.rows.find? fun r => r.value == t.value && r.revoked == false) = none := by
      apply List.find?_eq_none.mpr
      intro r hr
      simp only [Bool.and_eq_true, beq_iff_eq, not_and]
      intro hv
      exact absurd hv (fresh r hr)
    rw [hnone]
    have hrev : t.revoked = false := by rw [ht]
    simp [List.find?, hrev]
  · rw [ht]

/-- Witness value: the concrete serialized macaroon issued for the demo user. -/
def demoValue : String := (create_macaroon demoKey demoUser 0).toOption.getD ""

/-- Witness row: the record inserted by the demo issuance. -/
def demoToken : AccessToken := ⟨0, demoUser, demoValue, false, 0, 0⟩

/-- Witness store: the table after the demo issuance on an empty table. -/
def demoStoreAfter : Store := ⟨[demoToken], 1⟩

/-- Witness for C1: issue on an empty store and immediately look the value up. -/
theorem create_then_find_witness :
    AccessToken.find_valid_by_token demoStoreAfter demoToken.value = some demoToken ∧
    demoToken.user_id = demoUser :=
  create_then_find ⟨[], 0⟩ demoUser demoKey 0 demoToken demoStoreAfter (by rfl)
    (by intro r hr; exact absurd hr (by simp))

/-- Equation: a successful issuance steps the store to the returned store. -/
theorem applyOp_create_ok {s : Store} {u : UserId} {key : List Nat} {now : Nat}
    {t : AccessToken} {s' : Store}
    (hc : AccessToken.create s u key now = .ok (t, s')) :
    applyOp s (.create u key now) = s' := by
  show (match AccessToken.create s u key now with | .ok p => p.2 | .error _ => s) = s'
  rw [hc]

/-- Equation: a failed issuance leaves the store unchanged. -/
theorem applyOp_create_error {s : Store} {u : UserId} {key : List Nat} {now : Nat}
    {e : ApiErr} (hc : AccessToken.create s u key now = .error e) :
    applyOp s (.create u key now) = s := by
  show (match AccessToken.create s u key now with | .ok p => p.2 | .error _ => s) = s
  rw [hc]

/-- Equation: the lookup operation does not mutate the store. -/
theorem applyOp_find (s : Store) (v : String) : applyOp s (.find v) = s := rfl

/-- Equation: an acknowledged revoke updates the row with the record's id. -/
theorem applyOp_revoke_true (s : Store) (t : AccessToken) :
    applyOp s (.revoke t true) =
      ⟨s.rows.map fun r => if r.id = t.id then { t with revoked := true } else r,
       s.nextId⟩ := rfl

/-- Equation: an unacknowledged revoke leaves the store unchanged. -/
theorem applyOp_revoke_false (s : Store) (t : AccessToken) :
    applyOp s (.revoke t false) = s := rfl

/-- Every operation preserves store well-formedness. -/
theorem applyOp_wf {s : Store} (op : Op) (h : s.WF) : (applyOp s op).WF := by
  cases op with
  | create u key now =>
      cases hmac : AccessToken.create s u key now with
      | error e => rw [applyOp_create_error hmac]; exact h
      | ok p =>
          obtain ⟨t, s'⟩ := p
          obtain ⟨ht, hs⟩ := create_ok_shape s u key now t s' hmac
          rw [applyOp_create_ok hmac, hs]
          intro r hr
          rcases List.mem_append.mp hr with hold | hnew
          · exact Nat.lt_succ_of_lt (h r hold)
          · rw [List.mem_singleton.mp hnew, ht]
            exact Nat.lt_succ_self _
  | find v => rw [applyOp_find]; exact h
  | revoke t writeOk =>
      cases writeOk with
      | false => rw [applyOp_revoke_false]; exact h
      | true =>
          rw [applyOp_revoke_true]
          intro r hr
          simp only [List.mem_map] at hr
          obtain ⟨r₀, hr₀, hmap⟩ := hr
          by_cases hid : r₀.id = t.id
          · rw [← hmap, if_pos hid]
            have : ({ t with revoked := true } : AccessToken).id = t.id := rfl
            rw [this, ← hid]
            exact h r₀ hr₀
          · rw [← hmap, if_neg hid]
            exact h r₀ hr₀

/-- Every operation preserves "id `i` is present and revoked": `create` only
inserts a fresh id with `revoked = false`, `revoke` only sets the flag to
`true`, and the lookup does not mutate. -/
theorem applyOp_revoked {s : Store} {i : Nat} (op : Op) (hwf : s.WF)
    (h : s.RevokedId i) : (applyOp s op).RevokedId i := by
  obtain ⟨⟨r₀, hr₀, hid₀⟩, hall⟩ := h
  cases op with
  | create u key now =>
      cases hmac : AccessToken.create s u key now with
      | error e => rw [applyOp_create_error hmac]; exact ⟨⟨r₀, hr₀, hid₀⟩, hall⟩
      | ok p =>
          obtain ⟨t, s'⟩ := p
          obtain ⟨ht, hs⟩ := create_ok_shape s u key now t s' hmac
          rw [applyOp_create_ok hmac, hs]
          refine ⟨⟨r₀, List.mem_append_left _ hr₀, hid₀⟩, ?_⟩
          intro r hr hid
          rcases List.mem_append.mp hr with hold | hnew
          · exact hall r hold hid
          · exfalso
            have hlt : i < s.nextId := hid₀ ▸ hwf r₀ hr₀
            have hts : t.id = s.nextId := by rw [ht]
            rw [List.mem_singleton.mp hnew, hts] at hid
            omega
  | find v => rw [applyOp_find]; exact ⟨⟨r₀, hr₀, hid₀⟩, hall⟩
  | revoke t writeOk =>
      cases writeOk with
      | false => rw [applyOp_revoke_false]; exact ⟨⟨r₀, hr₀, hid₀⟩, hall⟩
      | true =>
          rw [applyOp_revoke_true]
          constructor
          · refine ⟨if r₀.id = t.id then { t with revoked := true } else r₀, ?_, ?_⟩
            · simp only [List.mem_map]
              exact ⟨r₀, hr₀, rfl⟩
            · by_cases hid : r₀.id = t.id
              · rw [if_pos hid]
                show t.id = i
                rw [← hid, hid₀]
              · rw [if_neg hid]
                exact hid₀
          · intro r hr hid
            simp only [List.mem_map] at hr
            obtain ⟨r₁, hr₁, hmap⟩ := hr
            by_cases h₁ : r₁.id = t.id
            · rw [← hmap, if_pos h₁]
            · rw [← hmap, if_neg h₁]
              apply hall r₁ hr₁
              rw [← hmap, if_neg h₁] at hid
              exact hid

/-- A sequence of operations preserves "id `i` is present and revoked". -/
theorem applyOps_revoked {i : Nat} (ops : List Op) :
    ∀ s : Store, s.WF → s.RevokedId i → (applyOps s ops).RevokedId i := by
  induction ops with
  | nil => intro s _ h; exact h
  | cons op rest ih =>
      intro s hwf h
      exact ih _ (applyOp_wf op hwf) (applyOp_revoked op hwf h)

/-- C6: over any sequence of `create` / `find_valid_by_token` / `revoke`
operations on a well-formed store, a revoked id never becomes unrevoked;
moreover `create` inserts its record with `revoked = false` and `revoke`
always sets the in-memory flag to `true`. -/
theorem revoked_monotonic (ops : List Op) (s : Store) (i : Nat)
    (hwf : s.WF) (hrev : s.RevokedId i) :
    (applyOps s ops).RevokedId i ∧
    (∀ u key now t s', AccessToken.create s u key now = .ok (t, s') →
        t.revoked = false) ∧
    (∀ t writeOk, ((AccessToken.revoke t s writeOk).1).revoked = true) := by
  refine ⟨applyOps_revoked ops s hwf hrev, ?_, ?_⟩
  · intro u key now t s' hc
    rw [(create_ok_shape s u key now t s' hc).1]
  · intro t writeOk
    unfold AccessToken.revoke
    cases writeOk <;> rfl

/-- Witness for C6: a store holding a revoked row with id 0 keeps id 0 revoked
across a fresh issuance followed by another revocation. -/
theorem revoked_monotonic_witness :
    (applyOps ⟨[⟨0, demoUser, "v", true, 0, 0⟩], 1⟩
        [Op.create demoUser demoKey 0, Op.revoke demoRow true]).RevokedId 0 :=
  (revoked_monotonic [Op.create demoUser demoKey 0, Op.revoke demoRow true]
      ⟨[⟨0, demoUser, "v", true, 0, 0⟩], 1⟩ 0 (by decide) (by decide)).1

/-- Splitting at the first colon decomposes the character list. -/
theorem splitColon_eq_some :
    ∀ (cs l h : List Char), splitColon cs = some (l, h) → cs = l ++ ':' :: h := by
  intro cs
  induction cs with
  | nil => intro l h hs; exact absurd hs (by simp [splitColon])
  | cons c rest ih =>
      intro l h hs
      unfold splitColon at hs
      by_cases hc : c = ':'
      · rw [if_pos hc] at hs
        simp only [Option.some.injEq, Prod.mk.injEq] at hs
        obtain ⟨hl, hh⟩ := hs
        rw [← hl, ← hh, hc]
        rfl
      · rw [if_neg hc] at hs
        cases hsp : splitColon rest with
        | none => rw [hsp] at hs; exact absurd hs (by simp)
        | some p =>
            rw [hsp] at hs
            simp only [Option.map_some', Option.some.injEq, Prod.mk.injEq] at hs
            obtain ⟨hl, hh⟩ := hs
            rw [← hl, ← hh, ih p.1 p.2 (by rw [hsp])]
            rfl

/-- A string accepted by the modelled `UserId::try_from` renders back to
itself: parsing only splits the `@local:domain` shape. -/
theorem tryFrom_toStr (s : String) (u : UserId) (h : UserId.tryFrom s = some u) :
    u.toStr = s := by
  unfold UserId.tryFrom at h
  cases hcl : s.toList with
  | nil => rw [hcl] at h; exact absurd h (by simp)
  | cons c rest =>
      rw [hcl] at h
      change (if c = '@' then
          match splitColon rest with
          | some (l, h) =>
              if l = [] ∨ h = [] then none
              else some (⟨String.mk l, String.mk h⟩ : UserId)
          | none => none
        else none) = some u at h
      by_cases hc : c = '@'
      · rw [if_pos hc] at h
        cases hsp : splitColon rest with
        | none => rw [hsp] at h; exact absurd h (by simp)
        | some p =>
            rw [hsp] at h
            obtain ⟨l, ht⟩ := p
            change (if l = [] ∨ ht = [] then none
                else some (⟨String.mk l, String.mk ht⟩ : UserId)) = some u at h
            by_cases hem : l = [] ∨ ht = []
            · rw [if_pos hem] at h; exact absurd h (by simp)
            · rw [if_neg hem] at h
              simp only [Option.some.injEq] at h
              have hrest := splitColon_eq_some rest l ht hsp
              have hsdata : s.data = '@' :: (l ++ ':' :: ht) := by
                have hx : s.toList = s.data := rfl
                rw [← hx, hcl, hc, hrest]
              apply String.ext
              rw [hsdata, ← h]
              show (("@" ++ String.mk l ++ ":" ++ String.mk ht) : String).data = _
              rw [String.data_append, String.data_append, String.data_append]
              simp
      · rw [if_neg hc] at h
        exact absurd h (by simp)

/-- C5: a raw login string that parses as a fully-qualified identity is
accepted exactly when its domain is the configured one and rejected as foreign
otherwise; a raw string that does not parse is combined with the configured
domain into `@raw:domain` (whose accepted identity renders back to exactly
that string); concretely, `resolve("carl", "example.org")` gives
`@carl:example.org`. -/
theorem resolve_user_spec (raw dom : String) :
    (∀ u, UserId.tryFrom raw = some u →
        resolveUser raw dom =
          (if u.hostname = dom then .ok u
           else .error (.unauthorized "User cannot be identified by this homeserver"))) ∧
    (UserId.tryFrom raw = none →
        ∀ u, UserId.tryFrom ("@" ++ raw ++ ":" ++ dom) = some u →
          resolveUser raw dom = .ok u ∧ u.toStr = "@" ++ raw ++ ":" ++ dom) ∧
    resolveUser "carl" "example.org" = .ok ⟨"carl", "example.org"⟩ := by
  refine ⟨?_, ?_, by rfl⟩
  · intro u hu
    unfold resolveUser
    rw [hu]
    show (if u.hostname ≠ dom then
        Except.error (ApiErr.unauthorized "User cannot be identified by this homeserver")
      else Except.ok u) = _
    by_cases hd : u.hostname = dom
    · rw [if_pos hd, if_neg (fun hcon => hcon hd)]
    · rw [if_neg hd, if_pos hd]
  · intro hnone u hu
    refine ⟨?_, tryFrom_toStr _ u hu⟩
    unfold resolveUser
    rw [hnone, hu]

/-- Witness for C5: a foreign fully-qualified id is rejected; a bare local
part is combined with the configured domain. -/
theorem resolve_user_spec_witness :
    resolveUser "@carl:other.org" "example.org" =
      .error (.unauthorized "User cannot be identified by this homeserver") ∧
    resolveUser "carl" "example.org" = .ok ⟨"carl", "example.org"⟩ := by
  constructor
  · have h := (resolve_user_spec "@carl:other.org" "example.org").1
      ⟨"carl", "other.org"⟩ (by decide)
    rw [h, if_neg (by decide)]
  · exact (resolve_user_spec "carl" "example.org").2.2

/-- C8: at the login boundary, every authentication failure — unknown identity
or wrong password alike — is mapped to the one generic unauthorized error, so
the two causes are never distinguishable to the caller. -/
theorem login_collapses_auth_errors
    (auth₁ auth₂ : UserId → String → Except AuthError RegisteredUser)
    (domain : String) (key : List Nat) (now : Nat) (user pass : String) (s : Store)
    (u : UserId) (hres : resolveUser user domain = .ok u)
    (e₁ e₂ : AuthError) (h₁ : auth₁ u pass = .error e₁) (h₂ : auth₂ u pass = .error e₂) :
    loginHandle auth₁ domain key now user pass s =
      .error (.unauthorized "Invalid credentials") ∧
    loginHandle auth₁ domain key now user pass s =
      loginHandle auth₂ domain key now user pass s := by
  have g : ∀ (a : UserId → String → Except AuthError RegisteredUser) (e : AuthError),
      a u pass = .error e →
      loginHandle a domain key now user pass s =
        .error (.unauthorized "Invalid credentials") := by
    intro a e ha
    unfold loginHandle
    rw [hres]
    change (match a u pass with
      | .error _ => Except.error (ApiErr.unauthorized "Invalid credentials")
      | .ok registered_user =>
          match AccessToken.create s registered_user.id key now with
          | .error e => Except.error e
          | .ok (access_token, s') =>
              Except.ok ((⟨access_token.value, domain, registered_user.id⟩ : LoginResponse), s')) = _
    rw [ha]
  exact ⟨g auth₁ e₁ h₁, (g auth₁ e₁ h₁).trans (g auth₂ e₂ h₂).symm⟩

/-- An authenticator that fails with "unknown identity" on every credential. -/
def authUnknown : UserId → String → Except AuthError RegisteredUser :=
  fun _ _ => .error .unknownIdentity

/-- An authenticator that fails with "wrong password" on every credential. -/
def authWrongPass : UserId → String → Except AuthError RegisteredUser :=
  fun _ _ => .error .invalidCredentials

/-- Witness for C8: an unknown identity and a wrong password produce the same
response at the login boundary for a concrete request. -/
theorem login_collapses_auth_errors_witness :
    loginHandle authUnknown "example.org" demoKey 0 "carl" "secret" ⟨[], 0⟩ =
      .error (.unauthorized "Invalid credentials") ∧
    loginHandle authUnknown "example.org" demoKey 0 "carl" "secret" ⟨[], 0⟩ =
      loginHandle authWrongPass "example.org" demoKey 0 "carl" "secret" ⟨[], 0⟩ :=
  login_collapses_auth_errors authUnknown authWrongPass "example.org" demoKey 0
    "carl" "secret" ⟨[], 0⟩ ⟨"carl", "example.org"⟩ (by rfl)
    AuthError.unknownIdentity AuthError.invalidCredentials rfl rfl

/-- C9: the registration password hash uses the fixed literal salt
`"extremely insecure"`, so it is a deterministic function of the password
alone — equal passwords yield equal stored hashes across any usernames and
any randomness. -/
theorem password_hash_fixed_salt (argon2i_simple : String → String → List Nat)
    (password : String) (bind₁ bind₂ : Option Bool) (name₁ name₂ : Option String)
    (rng₁ rng₂ : String) :
    (mkNewUser argon2i_simple rng₁ ⟨bind₁, password, name₁⟩).password_hash =
      (mkNewUser argon2i_simple rng₂ ⟨bind₂, password, name₂⟩).password_hash ∧
    (mkNewUser argon2i_simple rng₁ ⟨bind₁, password, name₁⟩).password_hash =
      base64encode (argon2i_simple password fixedSalt) ∧
    fixedSalt = "extremely insecure" := ⟨rfl, rfl, rfl⟩

/-- Every base64 digit is drawn from the alphabet. -/
theorem b64digit_mem (n : Nat) : b64digit n ∈ base64Alphabet := by
  unfold b64digit
  rcases h : base64Alphabet[n]? with _ | c
  · rw [List.getD_eq_getElem?_getD, h]
    decide
  · rw [List.getD_eq_getElem?_getD, h]
    simp only [Option.getD_some]
    exact List.getElem?_mem h

/-- Every character emitted by the base64 encoder is an alphabet character or
the padding character. -/
theorem mem_encodeGroups (bs : List Nat) (c : Char) (hc : c ∈ encodeGroups bs) :
    c ∈ base64Alphabet ∨ c = '=' := by
  match bs with
  | [] => simp [encodeGroups] at hc
  | [b0] =>
      simp only [encodeGroups, List.mem_cons, List.not_mem_nil, or_false] at hc
      rcases hc with h | h | h | h
      · exact Or.inl (by rw [h]; exact b64digit_mem _)
      · exact Or.inl (by rw [h]; exact b64digit_mem _)
      · exact Or.inr h
      · exact Or.inr h
  | [b0, b1] =>
      simp only [encodeGroups, List.mem_cons, List.not_mem_nil, or_false] at hc
      rcases hc with h | h | h | h
      · exact Or.inl (by rw [h]; exact b64digit_mem _)
      · exact Or.inl (by rw [h]; exact b64digit_mem _)
      · exact Or.inl (by rw [h]; exact b64digit_mem _)
      · exact Or.inr h
  | b0 :: b1 :: b2 :: rest =>
      rw [encodeGroups] at hc
      simp only [List.mem_cons] at hc
      rcases hc with h | h | h | h | h
      · exact Or.inl (by rw [h]; exact b64digit_mem _)
      · exact Or.inl (by rw [h]; exact b64digit_mem _)
      · exact Or.inl (by rw [h]; exact b64digit_mem _)
      · exact Or.inl (by rw [h]; exact b64digit_mem _)
      · exact mem_encodeGroups rest c h

/-- No base64-encoded value is the literal `"fake access token"`: the encoder
never emits a space. -/
theorem base64encode_ne_fake (bs : List Nat) : base64encode bs ≠ "fake access token" := by
  intro h
  have hsp : ' ' ∈ encodeGroups bs := by
    have hd : encodeGroups bs = ("fake access token" : String).data :=
      congrArg String.data h
    rw [hd]
    decide
  rcases mem_encodeGroups bs ' ' hsp with h' | h'
  · exact absurd h' (by decide)
  · exact absurd h' (by decide)

/-- `create_macaroon` never produces the literal fake token of `/register`. -/
theorem create_macaroon_ne_fake (key : List Nat) (u : UserId) (now : Nat) :
    create_macaroon key u now ≠ .ok "fake access token" := by
  unfold create_macaroon
  cases h : checkedAddSigned now (60 * 60) with
  | none => simp
  | some e =>
      intro hc
      simp only [Except.ok.injEq] at hc
      exact base64encode_ne_fake _ hc

/-- C10: a successful registration responds with the literal strings
`"fake access token"` and `"fake home server"`, inserts only a user record,
and leaves the access-token table untouched; moreover no issued macaroon value
ever equals the fake literal, so the returned token can never validate. -/
theorem register_fake_token (argon2i_simple : String → String → List Nat)
    (rngName : String) (req : RegistrationRequest) (users : List User)
    (tokens : Store) :
    registerHandle argon2i_simple rngName req users tokens =
      .ok (⟨"fake access token", "fake home server",
            (mkNewUser argon2i_simple rngName req).id⟩,
           users ++ [mkNewUser argon2i_simple rngName req], tokens) ∧
    (∀ key u now, create_macaroon key u now ≠ .ok "fake access token") :=
  ⟨rfl, fun key u now => create_macaroon_ne_fake key u now⟩

/-- An argon2 stand-in for the C10 witness. -/
def demoArgon : String → String → List Nat := fun p s => strBytes (p ++ s)

/-- Witness for C10 at a concrete registration request. -/
theorem register_fake_token_witness :
    registerHandle demoArgon "rng" ⟨none, "secret", some "carl"⟩ [] ⟨[], 0⟩ =
      .ok (⟨"fake access token", "fake home server",
            (mkNewUser demoArgon "rng" ⟨none, "secret", some "carl"⟩).id⟩,
           [mkNewUser demoArgon "rng" ⟨none, "secret", some "carl"⟩], ⟨[], 0⟩) ∧
    create_macaroon demoKey demoUser 0 ≠ .ok "fake access token" :=
  ⟨(register_fake_token demoArgon "rng" ⟨none, "secret", some "carl"⟩ [] ⟨[], 0⟩).1,
   (register_fake_token demoArgon "rng" ⟨none, "secret", some "carl"⟩ [] ⟨[], 0⟩).2
     demoKey demoUser 0⟩

end Ruma
